import Mathlib

/-!
Shallow embedding of the jellymal-rs watch-state reconciliation pipeline.

The embedding covers:
* `src/jellyfin.rs`: the `Item`/`Episode`/`UserData` data model, the
  `get_episodes` aggregation (series-index pass followed by episode
  extraction), the `get_latest_episodes` latest-watched reduction, and the
  `get_items` frontier traversal (modelled over an explicit catalog tree,
  since the real function drives an HTTP service).
* `src/mapping.rs`: the two offline lookup tables and the chained
  `tvdb_id_to_mal_id` translation.
* `src/oauth.rs`: the branch decision of `load_or_refresh_token`
  (lines 166-176), as a pure function of the persisted expiration date and
  the current wall clock.

Machine integers (`i32`, `i64`) are modelled as `Int`; `str::parse::<i32>`
is modelled by `parseI32` below, including the sign handling and the 32-bit
range check that make a Rust parse fail on overflow. Fallible Rust code
(`anyhow::Result`) is modelled with `Except String`.
-/

deriving instance DecidableEq for Except

namespace Jellymal

/-- Rust `i32::to_string` / `i64::to_string`, via Lean's decimal rendering. -/
def intToString (n : Int) : String := toString n

/-- Decimal digit value of a character, `none` for a non-digit.
Models one step of Rust's integer parsing. -/
def digitVal (c : Char) : Option Nat :=
  if c.isDigit then some (c.toNat - 48) else none

/-- Accumulating decimal parse over a list of characters; fails on the first
non-digit character. Models the digit loop of Rust's `str::parse`. -/
def parseNatAux : List Char → Nat → Option Nat
  | [], acc => some acc
  | c :: cs, acc =>
    match digitVal c with
    | some d => parseNatAux cs (acc * 10 + d)
    | none => none

/-- Decimal parse of a nonempty all-digit string into a `Nat`. -/
def parseNatDigits : List Char → Option Nat
  | [] => none
  | cs => parseNatAux cs 0

/-- Model of Rust `str::parse::<i32>()`: optional sign, at least one digit,
no other characters, and the value must fit in a 32-bit signed integer. -/
def parseI32 (s : String) : Option Int :=
  let signed : Option Int :=
    match s.data with
    | '+' :: cs => (parseNatDigits cs).map (fun n => (n : Int))
    | '-' :: cs => (parseNatDigits cs).map (fun n => -(n : Int))
    | cs => (parseNatDigits cs).map (fun n => (n : Int))
  match signed with
  | some v => if -(2 ^ 31) ≤ v ∧ v < 2 ^ 31 then some v else none
  | none => none

/-! ## Data model (`src/jellyfin.rs`) -/

/-- `UserData` from `src/jellyfin.rs`: per-item watch flag and external key. -/
structure UserData where
  played : Bool
  key : String
deriving DecidableEq

/-- `Item` from `src/jellyfin.rs`: one raw catalog record. -/
structure Item where
  id : String
  media_type : String
  index_number : Option Int
  parent_index_number : Option Int
  name : String
  season_name : Option String
  series_name : Option String
  series_id : Option String
  is_folder : Bool
  user_data : UserData
deriving DecidableEq

/-- `Episode` from `src/jellyfin.rs`: a validated episode record. -/
structure Episode where
  id : String
  number : Int
  name : String
  season_number : Int
  series_name : String
  tvdb_id : Int
  watched : Bool
deriving DecidableEq

/-! ## `get_episodes` (`src/jellyfin.rs` lines 91-129)

The first pass (lines 96-100) builds a `HashMap` from Series item id to that
series' `UserData.key`; later Series items with the same id overwrite earlier
ones. The map is modelled extensionally as `String → Option String`. -/

/-- One step of the series-index pass: insert a Series item's key, leave the
map unchanged for any other item kind. -/
def insertSeries (m : String → Option String) (item : Item) : String → Option String :=
  if item.media_type = "Series" then
    fun id => if id = item.id then some item.user_data.key else m id
  else m

/-- The series-index pass of `get_episodes` (lines 96-100). -/
def seriesIndex (items : List Item) : String → Option String :=
  items.foldl insertSeries (fun _ => none)

/-- Processing of a single item in the second pass of `get_episodes`
(lines 102-127): non-Episode items and Episode items with no `IndexNumber`
are skipped (`.ok none`); otherwise each required field is demanded in the
source's order, the series key is resolved through the series index, parsed
as an `i32`, and the `Episode` record is produced. -/
def processItem (m : String → Option String) (item : Item) : Except String (Option Episode) :=
  if item.media_type = "Episode" then
    match item.index_number with
    | none => .ok none
    | some n =>
      match item.series_name with
      | none => .error "episode missing series"
      | some series_name =>
        match item.parent_index_number with
        | none => .error "episode missing season number"
        | some season_number =>
          match item.series_id with
          | none => .error "episode missing series id"
          | some series_id =>
            match m series_id with
            | none => .error "unable to get tvdb id for episode"
            | some key =>
              match parseI32 key with
              | none => .error "invalid digit found in string"
              | some tvdb_id =>
                .ok (some { id := item.id, number := n, name := item.name,
                            season_number := season_number,
                            series_name := series_name, tvdb_id := tvdb_id,
                            watched := item.user_data.played })
  else .ok none

/-- The episode-extraction loop of `get_episodes`: items are processed left
to right, the first error aborts, skipped items contribute nothing, and
extracted episodes are emitted in input order. -/
def getEpisodesAux (m : String → Option String) : List Item → Except String (List Episode)
  | [] => .ok []
  | item :: rest =>
    match processItem m item with
    | .error e => .error e
    | .ok none => getEpisodesAux m rest
    | .ok (some ep) => (getEpisodesAux m rest).map (fun eps => ep :: eps)

/-- `get_episodes` (`src/jellyfin.rs` lines 91-129), over an already-fetched
item list. -/
def get_episodes (items : List Item) : Except String (List Episode) :=
  getEpisodesAux (seriesIndex items) items

/-! ## `get_latest_episodes` (`src/jellyfin.rs` lines 131-157) -/

/-- One step of the latest-watched reduction (lines 140-154): unwatched
episodes are ignored; a watched episode is inserted when its key is new, or
when it beats the current holder by `season_number > other.season_number ||
(season_number == other.season_number && number > other.number)`. -/
def latestInsert (status : Int → Option Episode) (episode : Episode) :
    Int → Option Episode :=
  if episode.watched then
    match status episode.tvdb_id with
    | some other =>
      if episode.season_number > other.season_number ∨
          (episode.season_number = other.season_number ∧ episode.number > other.number) then
        fun k => if k = episode.tvdb_id then some episode else status k
      else status
    | none => fun k => if k = episode.tvdb_id then some episode else status k
  else status

/-- `get_latest_episodes` (`src/jellyfin.rs` lines 131-157): extract the
episodes, then fold the latest-watched reduction over them. The resulting
`HashMap<i32, Episode>` is modelled extensionally. -/
def get_latest_episodes (items : List Item) : Except String (Int → Option Episode) :=
  (get_episodes items).map (fun eps => eps.foldl latestInsert (fun _ => none))

/-- Lexicographic order on `(season_number, number)` pairs; `lexLE a b`
says `a`'s pair is at most `b`'s. -/
def lexLE (a b : Episode) : Prop :=
  a.season_number < b.season_number ∨
    (a.season_number = b.season_number ∧ a.number ≤ b.number)

instance (a b : Episode) : Decidable (lexLE a b) := by
  unfold lexLE; infer_instance

/-! ## `get_items` (`src/jellyfin.rs` lines 159-183)

The real function drives the source catalog service over HTTP: it keeps a
frontier of pending container ids, pops one per loop iteration, issues one
`/Items` request for it, appends every returned item to the output and
pushes the ids of the returned folder items back onto the frontier
(`Vec::push`/`Vec::pop`, so LIFO order). The service is modelled by a
catalog tree: each `CatalogNode` is an item together with the children the
service would return when queried for that item's id. The frontier is kept
top-of-stack-first, which mirrors the source's push-at-end/pop-at-end `Vec`.
Alongside the item list, the model counts the number of child-listing calls
issued (one per frontier pop, exactly as in the loop). -/

/-- A node of the source catalog: an item plus the children listed under it. -/
inductive CatalogNode where
  | mk (item : Item) (children : List CatalogNode)

/-- The item stored at a catalog node. -/
def CatalogNode.item : CatalogNode → Item
  | .mk i _ => i

/-- The children listed under a catalog node. -/
def CatalogNode.children : CatalogNode → List CatalogNode
  | .mk _ cs => cs

/-- Number of nodes in a catalog forest. -/
def forestSize : List CatalogNode → Nat
  | [] => 0
  | .mk _ children :: rest => 1 + forestSize children + forestSize rest

/-- The items of a forest's roots, in listing order: the body of one
`/Items` response. -/
def forestItems : List CatalogNode → List Item
  | [] => []
  | .mk i _ :: rest => i :: forestItems rest

/-- The frontier entries pushed while scanning one `/Items` response
(lines 175-180): the child list of every folder item, in item order. -/
def pushedEntries : List CatalogNode → List (List CatalogNode)
  | [] => []
  | .mk i children :: rest =>
    if i.is_folder then children :: pushedEntries rest else pushedEntries rest

/-- Total node count over a frontier. -/
def stackSize : List (List CatalogNode) → Nat
  | [] => 0
  | cs :: rest => forestSize cs + stackSize rest

theorem stackSize_append (a b : List (List CatalogNode)) :
    stackSize (a ++ b) = stackSize a + stackSize b := by
  induction a with
  | nil => simp [stackSize]
  | cons c a ih => simp [stackSize, ih]; omega

theorem stackSize_reverse (a : List (List CatalogNode)) :
    stackSize a.reverse = stackSize a := by
  induction a with
  | nil => rfl
  | cons c a ih =>
    simp [List.reverse_cons, stackSize_append, stackSize, ih]; omega

theorem pushed_size_bound (cs : List CatalogNode) :
    2 * stackSize (pushedEntries cs) + (pushedEntries cs).length + cs.length ≤
      2 * forestSize cs := by
  induction cs with
  | nil => simp [pushedEntries, forestSize, stackSize]
  | cons c rest ih =>
    obtain ⟨i, children⟩ := c
    by_cases h : i.is_folder <;>
      simp [pushedEntries, forestSize, h, stackSize] <;> omega

/-- The while loop of `get_items` (lines 162-181) over a frontier of pending
containers, top of stack first. Each step pops one entry, issues one call
(counted), appends the listed items, and pushes the folder children's lists;
pushing `e1, e2, ...` at the `Vec`'s end corresponds to consing
`(pushedEntries cs).reverse` here. Returns the collected items and the
number of child-listing calls. -/
def traverseAux (stack : List (List CatalogNode)) : List Item × Nat :=
  match stack with
  | [] => ([], 0)
  | cs :: rest =>
    let r := traverseAux ((pushedEntries cs).reverse ++ rest)
    (forestItems cs ++ r.1, r.2 + 1)
termination_by 2 * stackSize stack + stack.length
decreasing_by
  simp [stackSize_append, stackSize_reverse, stackSize]
  have := pushed_size_bound cs
  omega

/-- `get_items` over a catalog whose root container lists `catalog`:
the frontier starts with the single (implicit or explicit) root. -/
def get_items (catalog : List CatalogNode) : List Item × Nat :=
  traverseAux [catalog]

/-- Number of folder items (`is_folder = true`) in a catalog forest. -/
def foldersForest : List CatalogNode → Nat
  | [] => 0
  | .mk i children :: rest =>
    (if i.is_folder then 1 else 0) + foldersForest children + foldersForest rest

/-- Number of container nodes of a catalog: the root container that is
queried first, plus every folder item in the tree. -/
def containerCount (catalog : List CatalogNode) : Nat :=
  1 + foldersForest catalog

/-- Strict-tree well-formedness of the catalog: only container items have
children, so every node is reachable from the root by listing calls. -/
def wfForest : List CatalogNode → Bool
  | [] => true
  | .mk i children :: rest =>
    (i.is_folder || children.isEmpty) && wfForest children && wfForest rest

/-! ## `src/mapping.rs` -/

/-- `Anime` from `src/mapping.rs`: one record of the XML Table A,
all fields kept as strings exactly as deserialized. -/
structure Anime where
  anidbid : String
  tvdbid : String
  defaulttvdbseason : String
deriving DecidableEq

/-- `OfflineAnime` from `src/mapping.rs`: one record of the JSON Table B. -/
structure OfflineAnime where
  anidb_id : Option Int
  mal_id : Option Int
deriving DecidableEq

/-- `tvdb_id_to_anidb_id` (`src/mapping.rs` lines 37-49), over the already
deserialized Table A: scan in order for the first record whose `tvdbid` and
`defaulttvdbseason` equal the rendered inputs, parse and return its
`anidbid` (a parse failure aborts with an error, as `?` does); if no record
matches, fail with the fixed message. -/
def tvdb_id_to_anidb_id (tvdb_id tvdb_season_number : Int) :
    List Anime → Except String Int
  | [] => .error "unable to map tvdb to anidb"
  | anime :: rest =>
    if anime.tvdbid = intToString tvdb_id ∧
        anime.defaulttvdbseason = intToString tvdb_season_number then
      match parseI32 anime.anidbid with
      | some v => .ok v
      | none => .error "invalid digit found in string"
    else tvdb_id_to_anidb_id tvdb_id tvdb_season_number rest

/-- `anidb_id_to_mal_id` (`src/mapping.rs` lines 51-64), over the already
deserialized Table B: `find_map` over the records, yielding the first
present `mal_id` among records whose `anidb_id` matches; both a wholly
missing match and matches that carry no `mal_id` end in the same
`unable to map anidb id to mal id` error. -/
def anidb_id_to_mal_id (anidb_id : Int) : List OfflineAnime → Except String Int
  | [] => .error "unable to map anidb id to mal id"
  | anime :: rest =>
    match (if anime.anidb_id = some anidb_id then anime.mal_id else none) with
    | some v => .ok v
    | none => anidb_id_to_mal_id anidb_id rest

/-- `tvdb_id_to_mal_id` (`src/mapping.rs` lines 26-35): the two-hop chain. -/
def tvdb_id_to_mal_id (tvdb_id tvdb_season_number : Int)
    (tableA : List Anime) (tableB : List OfflineAnime) : Except String Int :=
  match tvdb_id_to_anidb_id tvdb_id tvdb_season_number tableA with
  | .error e => .error e
  | .ok anidb_id => anidb_id_to_mal_id anidb_id tableB

/-! ## `src/oauth.rs`: the `load_or_refresh_token` branch decision

Lines 166-176 decide, from the loaded credential's `expiration_date` and the
current wall clock (both epoch milliseconds), whether to mint a new token
via the interactive flow (`initialize_token`), renew it via the refresh
flow (`refresh_token`), or keep the loaded token unmodified. -/

/-- Which flow `load_or_refresh_token` takes for a loaded credential. -/
inductive TokenAction where
  | reauthorize
  | refresh
  | keep
deriving DecidableEq

/-- `five_days_millis` from `src/oauth.rs` line 167. -/
def five_days_millis : Int := 1000 * 60 * 60 * 24 * 5

/-- The branch decision of `load_or_refresh_token` (`src/oauth.rs` lines
166-176): `expiration_date <= now` runs the full interactive flow again;
otherwise `now - expiration_date >= five_days_millis` (the source's literal
condition) runs the refresh flow; otherwise the token is kept unmodified. -/
def tokenAction (expiration_date current_time_millis : Int) : TokenAction :=
  if expiration_date ≤ current_time_millis then .reauthorize
  else if current_time_millis - expiration_date ≥ five_days_millis then .refresh
  else .keep

/-! ## Credential lifecycle theorems -/

/-- Claim C5: for every persisted credential whose `expiration_date` is less
than or equal to the current wall-clock time, `load_or_refresh_token` runs
the full interactive authorization flow again and does not use the
refresh-token flow. -/
theorem expired_token_reauthorizes (expiration_date current_time_millis : Int)
    (h : expiration_date ≤ current_time_millis) :
    tokenAction expiration_date current_time_millis = TokenAction.reauthorize := by
  simp [tokenAction, h]

theorem expired_token_reauthorizes_witness :
    (1000 : Int) ≤ 2000 ∧ tokenAction 1000 2000 = TokenAction.reauthorize :=
  ⟨by decide, expired_token_reauthorizes 1000 2000 (by decide)⟩

/-- Claim C2 (code bug evidence): `load_or_refresh_token` compares
`now - expiration_date >= five_days_millis` instead of the time remaining
until expiry, so a credential one second short of expiry (well within the
five-day window) is kept unmodified; moreover no inputs at all can reach
the refresh branch, since before expiry `now - expiration_date` is
negative and after expiry the reauthorization branch has already fired. -/
theorem near_expiry_token_kept_not_refreshed :
    tokenAction 1000 0 = TokenAction.keep ∧
      ∀ expiration_date current_time_millis : Int,
        tokenAction expiration_date current_time_millis ≠ TokenAction.refresh := by
  refine ⟨by decide, ?_⟩
  intro e n
  unfold tokenAction five_days_millis
  split
  · simp
  · split
    · next hlt hge => exfalso; omega
    · simp

/-! ## Identifier translator theorems -/

/-- Claim C4 (counterexample): in `anidb_id_to_mal_id`, the case where no
record matches the intermediate id at all (empty table) and the case where
a record matches but carries no `mal_id` produce the very same error value,
so the two failures are not distinguishable. -/
theorem anidb_failures_not_distinguishable :
    anidb_id_to_mal_id 5 ([] : List OfflineAnime) =
        .error "unable to map anidb id to mal id" ∧
      anidb_id_to_mal_id 5 [{ anidb_id := some 5, mal_id := none }] =
        .error "unable to map anidb id to mal id" := by
  decide

/-- Claim C4 (amended): whenever every Table-B record matching the
intermediate id carries no destination id — which covers both the
no-match-at-all case and the match-with-no-destination-id case —
`anidb_id_to_mal_id` fails with the single error
`unable to map anidb id to mal id`; the two failure modes are reported
identically, not distinctly. -/
theorem anidb_id_to_mal_id_single_error (x : Int) (t : List OfflineAnime)
    (h : ∀ a ∈ t, a.anidb_id = some x → a.mal_id = none) :
    anidb_id_to_mal_id x t = .error "unable to map anidb id to mal id" := by
  induction t with
  | nil => rfl
  | cons a rest ih =>
    have ha := h a (List.mem_cons_self a rest)
    simp only [anidb_id_to_mal_id]
    by_cases hm : a.anidb_id = some x
    · rw [if_pos hm, ha hm]
      exact ih fun b hb => h b (List.mem_cons_of_mem a hb)
    · rw [if_neg hm]
      exact ih fun b hb => h b (List.mem_cons_of_mem a hb)

theorem anidb_id_to_mal_id_single_error_witness :
    (∀ a ∈ [({ anidb_id := some 5, mal_id := none } : OfflineAnime)],
        a.anidb_id = some 5 → a.mal_id = none) ∧
      anidb_id_to_mal_id 5 [{ anidb_id := some 5, mal_id := none }] =
        .error "unable to map anidb id to mal id" :=
  ⟨by decide, anidb_id_to_mal_id_single_error 5 _ (by decide)⟩

/-- Claim C8 (counterexample): Table A contains the record
`{intermediateId 7, sourceSeriesId 5, sourceDefaultSeasonNumber 2}` and
Table B contains `{intermediateId 7, destinationId 99}`, yet
`translate(5, 2)` does not return `99`: an earlier Table-A record for the
same `(5, 2)` pair but a different intermediate id shadows it, and the
lookup fails instead. -/
theorem tvdb_roundtrip_shadowed :
    tvdb_id_to_mal_id 5 2
        [{ anidbid := "8", tvdbid := "5", defaulttvdbseason := "2" },
         { anidbid := "7", tvdbid := "5", defaulttvdbseason := "2" }]
        [{ anidb_id := some 7, mal_id := some 99 }] =
        .error "unable to map anidb id to mal id" ∧
      tvdb_id_to_mal_id 5 2
        [{ anidbid := "8", tvdbid := "5", defaulttvdbseason := "2" },
         { anidbid := "7", tvdbid := "5", defaulttvdbseason := "2" }]
        [{ anidb_id := some 7, mal_id := some 99 }] ≠ .ok 99 := by
  constructor <;> decide

/-- Claim C8 (amended): if the first Table-A record matching
`(sourceSeriesId S, season 2)` has intermediate id `X` (its `anidbid`
parses to `X`), and the first Table-B record that matches `X` and carries a
destination id carries `D`, then `translate(S, 2)` returns `D`. -/
theorem tvdb_id_to_mal_id_roundtrip (S X D : Int)
    (A1 A2 : List Anime) (recA : Anime)
    (B1 B2 : List OfflineAnime) (recB : OfflineAnime)
    (hA1 : ∀ a ∈ A1,
      ¬(a.tvdbid = intToString S ∧ a.defaulttvdbseason = intToString 2))
    (hAs : recA.tvdbid = intToString S)
    (hAe : recA.defaulttvdbseason = intToString 2)
    (hAX : parseI32 recA.anidbid = some X)
    (hB1 : ∀ b ∈ B1, b.anidb_id = some X → b.mal_id = none)
    (hBX : recB.anidb_id = some X) (hBD : recB.mal_id = some D) :
    tvdb_id_to_mal_id S 2 (A1 ++ recA :: A2) (B1 ++ recB :: B2) = .ok D := by
  have hAeq : tvdb_id_to_anidb_id S 2 (A1 ++ recA :: A2) = .ok X := by
    induction A1 with
    | nil =>
      simp only [List.nil_append, tvdb_id_to_anidb_id]
      rw [if_pos ⟨hAs, hAe⟩, hAX]
    | cons a A1' ih =>
      have hna := hA1 a (List.mem_cons_self a A1')
      simp only [List.cons_append, tvdb_id_to_anidb_id]
      rw [if_neg hna]
      exact ih fun b hb => hA1 b (List.mem_cons_of_mem a hb)
  have hBeq : anidb_id_to_mal_id X (B1 ++ recB :: B2) = .ok D := by
    induction B1 with
    | nil =>
      simp only [List.nil_append, anidb_id_to_mal_id]
      rw [if_pos hBX, hBD]
    | cons b B1' ih =>
      have hb := hB1 b (List.mem_cons_self b B1')
      simp only [List.cons_append, anidb_id_to_mal_id]
      by_cases hm : b.anidb_id = some X
      · rw [if_pos hm, hb hm]
        exact ih fun c hc => hB1 c (List.mem_cons_of_mem b hc)
      · rw [if_neg hm]
        exact ih fun c hc => hB1 c (List.mem_cons_of_mem b hc)
  simp [tvdb_id_to_mal_id, hAeq, hBeq]

/-! ## `get_episodes` error-handling theorems -/

theorem getEpisodesAux_error_of_mem (m : String → Option String) (l : List Item)
    (item : Item) (hmem : item ∈ l) (e : String)
    (hfail : processItem m item = .error e) :
    ∃ msg, getEpisodesAux m l = .error msg := by
  induction l with
  | nil => cases hmem
  | cons a rest ih =>
    rcases List.mem_cons.mp hmem with h | h
    · subst h
      exact ⟨e, by simp [getEpisodesAux, hfail]⟩
    · simp only [getEpisodesAux]
      cases hp : processItem m a with
      | error e2 => exact ⟨e2, rfl⟩
      | ok o =>
        obtain ⟨msg, hmsg⟩ := ih h
        cases o with
        | none => exact ⟨msg, hmsg⟩
        | some ep => exact ⟨msg, by simp [hmsg, Except.map]⟩

theorem processItem_error_of_missing (m : String → Option String) (item : Item)
    (hk : item.media_type = "Episode") (hn : item.index_number ≠ none)
    (hmiss : item.series_name = none ∨ item.parent_index_number = none ∨
      item.series_id = none) :
    ∃ e, processItem m item = .error e := by
  cases hidx : item.index_number with
  | none => exact absurd hidx hn
  | some n =>
    cases hsn : item.series_name with
    | none => exact ⟨"episode missing series", by simp [processItem, hk, hidx, hsn]⟩
    | some sn =>
      cases hpi : item.parent_index_number with
      | none =>
        exact ⟨"episode missing season number", by simp [processItem, hk, hidx, hsn, hpi]⟩
      | some pn =>
        cases hsi : item.series_id with
        | none =>
          exact ⟨"episode missing series id", by simp [processItem, hk, hidx, hsn, hpi, hsi]⟩
        | some si => simp_all

/-- Claim C3 (counterexample): an Episode item lacking `IndexNumber` does
not make `get_episodes` fail — it is silently skipped, and the aggregation
succeeds with an empty output even though every other required field could
also be checked. -/
theorem episode_missing_index_silently_skipped :
    get_episodes
        [{ id := "15", media_type := "Episode", index_number := none,
           parent_index_number := some 2, name := "test_episode",
           season_name := none, series_name := some "test_series",
           series_id := some "14", is_folder := false,
           user_data := { played := true, key := "k" } }] = .ok [] := by
  decide

/-- Claim C3 (amended): an Episode item that has an `IndexNumber` but lacks
`series_name`, `parent_index_number`, or `series_id` makes `get_episodes`
fail (the error raised at such an item names the missing field), whereas an
Episode item lacking `IndexNumber` is silently skipped rather than
rejected. -/
theorem episode_missing_field_errors (items : List Item) (item : Item)
    (hmem : item ∈ items) (hk : item.media_type = "Episode")
    (hn : item.index_number ≠ none)
    (hmiss : item.series_name = none ∨ item.parent_index_number = none ∨
      item.series_id = none) :
    ∃ msg, get_episodes items = .error msg := by
  obtain ⟨e, he⟩ := processItem_error_of_missing (seriesIndex items) item hk hn hmiss
  exact getEpisodesAux_error_of_mem (seriesIndex items) items item hmem e he

theorem episode_missing_field_errors_witness :
    ∃ msg, get_episodes
        [{ id := "15", media_type := "Episode", index_number := some 8,
           parent_index_number := some 2, name := "test_episode",
           season_name := none, series_name := some "test_series",
           series_id := none, is_folder := false,
           user_data := { played := true, key := "k" } }] = .error msg :=
  episode_missing_field_errors _
    { id := "15", media_type := "Episode", index_number := some 8,
      parent_index_number := some 2, name := "test_episode",
      season_name := none, series_name := some "test_series",
      series_id := none, is_folder := false,
      user_data := { played := true, key := "k" } }
    (by decide) (by decide) (by decide) (by decide)

theorem seriesIndex_skip (l1 l2 : List Item) (item : Item)
    (h : ¬item.media_type = "Series") :
    seriesIndex (l1 ++ item :: l2) = seriesIndex (l1 ++ l2) := by
  unfold seriesIndex
  rw [List.foldl_append, List.foldl_append, List.foldl_cons]
  congr 1
  simp [insertSeries, h]

theorem getEpisodesAux_skip (m : String → Option String) (l1 l2 : List Item)
    (item : Item) (hk : item.media_type = "Episode")
    (hn : item.index_number = none) :
    getEpisodesAux m (l1 ++ item :: l2) = getEpisodesAux m (l1 ++ l2) := by
  induction l1 with
  | nil => simp [getEpisodesAux, processItem, hk, hn]
  | cons a rest ih =>
    simp only [List.cons_append, getEpisodesAux, List.append_eq]
    rw [ih]

/-- Claim C7: an Episode item with no `IndexNumber` is excluded from the
aggregation entirely — removing it from the input leaves `get_episodes`
unchanged, so it contributes no entry and no error — whereas an Episode
item that does have an `IndexNumber` but no `SeriesId` makes
`get_episodes` fail. -/
theorem episode_skip_vs_missing_series_id (l1 l2 : List Item) (item : Item)
    (hk : item.media_type = "Episode") :
    (item.index_number = none →
      get_episodes (l1 ++ item :: l2) = get_episodes (l1 ++ l2)) ∧
      (item.index_number ≠ none → item.series_id = none →
        ∃ msg, get_episodes (l1 ++ item :: l2) = .error msg) := by
  constructor
  · intro hn
    unfold get_episodes
    rw [seriesIndex_skip l1 l2 item (by simp [hk]),
      getEpisodesAux_skip _ l1 l2 item hk hn]
  · intro hn hsi
    exact episode_missing_field_errors (l1 ++ item :: l2) item
      (by simp) hk hn (Or.inr (Or.inr hsi))

theorem episode_skip_vs_missing_series_id_witness :
    let noIdx : Item :=
      { id := "15", media_type := "Episode", index_number := none,
        parent_index_number := some 2, name := "e", season_name := none,
        series_name := some "s", series_id := some "14", is_folder := false,
        user_data := { played := true, key := "k" } }
    (noIdx.index_number = none →
      get_episodes ([] ++ noIdx :: []) = get_episodes ([] ++ [])) ∧
      (noIdx.index_number ≠ none → noIdx.series_id = none →
        ∃ msg, get_episodes ([] ++ noIdx :: []) = .error msg) :=
  episode_skip_vs_missing_series_id [] []
    { id := "15", media_type := "Episode", index_number := none,
      parent_index_number := some 2, name := "e", season_name := none,
      series_name := some "s", series_id := some "14", is_folder := false,
      user_data := { played := true, key := "k" } }
    (by decide)

/-- Claim C10 (counterexample): a Series item with an unparseable
`UserData.key` does not make `get_episodes` fail when a later Series item
with the same id overwrites the key with a parseable one — the series
index keeps only the last duplicate, so the valid Episode of that series
is aggregated successfully. -/
theorem unparseable_key_overwritten_no_error :
    get_episodes
        [{ id := "1", media_type := "Series", index_number := none,
           parent_index_number := none, name := "s", season_name := none,
           series_name := none, series_id := none, is_folder := true,
           user_data := { played := false, key := "x" } },
         { id := "1", media_type := "Series", index_number := none,
           parent_index_number := none, name := "s", season_name := none,
           series_name := none, series_id := none, is_folder := true,
           user_data := { played := false, key := "7" } },
         { id := "15", media_type := "Episode", index_number := some 8,
           parent_index_number := some 2, name := "e", season_name := none,
           series_name := some "s", series_id := some "1", is_folder := false,
           user_data := { played := true, key := "k" } }] =
      .ok [{ id := "15", number := 8, name := "e", season_number := 2,
             series_name := "s", tvdb_id := 7, watched := true }] := by
  decide

/-- Claim C10 (amended): if the series index built by `get_episodes` maps a
series id to a key that does not parse as a 32-bit signed decimal integer
— that is, the last Series-kind item with that id carries the unparseable
key — then the presence of any Episode item of that series carrying all
four required fields makes `get_episodes` fail: the aggregation key is the
parsed integer, not an opaque string. -/
theorem unparseable_series_key_errors (items : List Item) (sid k : String)
    (hidx : seriesIndex items sid = some k) (hbad : parseI32 k = none)
    (item : Item) (hmem : item ∈ items) (hkind : item.media_type = "Episode")
    (hn : ∃ n, item.index_number = some n)
    (hsn : ∃ s, item.series_name = some s)
    (hpi : ∃ p, item.parent_index_number = some p)
    (hsi : item.series_id = some sid) :
    ∃ msg, get_episodes items = .error msg := by
  obtain ⟨n, hn⟩ := hn
  obtain ⟨s, hsn⟩ := hsn
  obtain ⟨p, hpi⟩ := hpi
  have hfail : processItem (seriesIndex items) item =
      .error "invalid digit found in string" := by
    simp [processItem, hkind, hn, hsn, hpi, hsi, hidx, hbad]
  exact getEpisodesAux_error_of_mem (seriesIndex items) items item hmem _ hfail

theorem unparseable_series_key_errors_witness :
    ∃ msg, get_episodes
        [{ id := "1", media_type := "Series", index_number := none,
           parent_index_number := none, name := "s", season_name := none,
           series_name := none, series_id := none, is_folder := true,
           user_data := { played := false, key := "xx" } },
         { id := "15", media_type := "Episode", index_number := some 8,
           parent_index_number := some 2, name := "e", season_name := none,
           series_name := some "s", series_id := some "1", is_folder := false,
           user_data := { played := true, key := "k" } }] = .error msg :=
  unparseable_series_key_errors _ "1" "xx" (by decide) (by decide)
    { id := "15", media_type := "Episode", index_number := some 8,
      parent_index_number := some 2, name := "e", season_name := none,
      series_name := some "s", series_id := some "1", is_folder := false,
      user_data := { played := true, key := "k" } }
    (by decide) (by decide) ⟨8, by decide⟩ ⟨"s", by decide⟩ ⟨2, by decide⟩
    (by decide)

/-! ## `get_latest_episodes` reduction theorems -/

theorem lexLE_refl (a : Episode) : lexLE a a := by
  simp [lexLE]

theorem lexLE_trans (a b c : Episode) (h1 : lexLE a b) (h2 : lexLE b c) :
    lexLE a c := by
  simp only [lexLE] at *
  omega

theorem latestInsert_unwatched (status : Int → Option Episode) (a : Episode)
    (hw : a.watched = false) : latestInsert status a = status := by
  simp [latestInsert, hw]

theorem latestInsert_other (status : Int → Option Episode) (a : Episode)
    (k : Int) (hk : k ≠ a.tvdb_id) : latestInsert status a k = status k := by
  by_cases hw : a.watched = true
  · cases hs : status a.tvdb_id with
    | none => simp [latestInsert, hw, hs, hk]
    | some other =>
      simp only [latestInsert, hw, hs, if_true]
      split
      · simp [hk]
      · rfl
  · simp [latestInsert, hw]

theorem latestInsert_self (status : Int → Option Episode) (a : Episode)
    (hw : a.watched = true) :
    ∃ r, latestInsert status a a.tvdb_id = some r ∧
      (r = a ∨ status a.tvdb_id = some r) ∧ lexLE a r ∧
      (∀ e0, status a.tvdb_id = some e0 → lexLE e0 r) := by
  rcases hs : status a.tvdb_id with _ | other
  · refine ⟨a, by simp [latestInsert, hw, hs], Or.inl rfl, lexLE_refl a, ?_⟩
    intro e0 h
    cases h
  · by_cases hb : a.season_number > other.season_number ∨
        (a.season_number = other.season_number ∧ a.number > other.number)
    · refine ⟨a, by simp [latestInsert, hw, hs, hb], Or.inl rfl, lexLE_refl a, ?_⟩
      intro e0 h
      cases Option.some.inj h
      simp only [lexLE]
      omega
    · refine ⟨other, by simp [latestInsert, hw, hs, hb], Or.inr rfl, ?_, ?_⟩
      · simp only [lexLE]
        omega
      · intro e0 h
        cases Option.some.inj h
        exact lexLE_refl other

theorem latestInsert_cases (status : Int → Option Episode) (a : Episode)
    (k : Int) (e : Episode) (h : latestInsert status a k = some e) :
    (e = a ∧ a.watched = true) ∨ status k = some e := by
  by_cases hk : k = a.tvdb_id
  · subst hk
    by_cases hw : a.watched = true
    · obtain ⟨r, hr, hm, -, -⟩ := latestInsert_self status a hw
      rw [h] at hr
      cases Option.some.inj hr
      rcases hm with he | hold
      · exact Or.inl ⟨he, hw⟩
      · exact Or.inr hold
    · rw [latestInsert_unwatched status a (by simpa using hw)] at h
      exact Or.inr h
  · rw [latestInsert_other status a k hk] at h
    exact Or.inr h

theorem latestFold_untouched (eps : List Episode)
    (status : Int → Option Episode) (k : Int)
    (h : ∀ b ∈ eps, b.watched = true → b.tvdb_id ≠ k) :
    (eps.foldl latestInsert status) k = status k := by
  induction eps generalizing status with
  | nil => rfl
  | cons a rest ih =>
    rw [List.foldl_cons]
    rw [ih (latestInsert status a) fun b hb => h b (List.mem_cons_of_mem a hb)]
    by_cases hw : a.watched = true
    · exact latestInsert_other status a k
        fun hk => h a (List.mem_cons_self a rest) hw (hk ▸ rfl)
    · rw [latestInsert_unwatched status a (by simpa using hw)]

theorem latestFold_watched_invariant (eps : List Episode)
    (status : Int → Option Episode)
    (hstat : ∀ k e, status k = some e → e.watched = true) :
    ∀ k e, (eps.foldl latestInsert status) k = some e → e.watched = true := by
  induction eps generalizing status with
  | nil => exact hstat
  | cons a rest ih =>
    rw [List.foldl_cons]
    refine ih (latestInsert status a) ?_
    intro k e h
    rcases latestInsert_cases status a k e h with ⟨he, hw⟩ | hold
    · exact he ▸ hw
    · exact hstat k e hold

/-- Claim C6: every entry of the mapping returned by
`get_latest_episodes` has `watched = true`; an unwatched episode is never
inserted and never replaces an existing entry. -/
theorem get_latest_episodes_all_watched (items : List Item)
    (m : Int → Option Episode) (hm : get_latest_episodes items = .ok m)
    (k : Int) (e : Episode) (he : m k = some e) : e.watched = true := by
  unfold get_latest_episodes at hm
  cases heps : get_episodes items with
  | error msg => rw [heps] at hm; cases hm
  | ok eps =>
    rw [heps] at hm
    have hfold : m = eps.foldl latestInsert (fun _ => none) :=
      (Except.ok.inj hm).symm
    rw [hfold] at he
    exact latestFold_watched_invariant eps (fun _ => none) (by intro k' e' h'; cases h')
      k e he

theorem latestFold_max (eps : List Episode) (status : Int → Option Episode)
    (k : Int) (hx : ∃ y ∈ eps, y.watched = true ∧ y.tvdb_id = k) :
    ∃ r, (eps.foldl latestInsert status) k = some r ∧
      ((r ∈ eps ∧ r.watched = true ∧ r.tvdb_id = k) ∨ status k = some r) ∧
      (∀ e0, status k = some e0 → lexLE e0 r) ∧
      (∀ b ∈ eps, b.watched = true → b.tvdb_id = k → lexLE b r) := by
  induction eps generalizing status with
  | nil =>
    obtain ⟨y, hym, -, -⟩ := hx
    cases hym
  | cons a rest ih =>
    rw [List.foldl_cons]
    by_cases hrest : ∃ y ∈ rest, y.watched = true ∧ y.tvdb_id = k
    · obtain ⟨r, hr, hmem, hdom, hball⟩ := ih (latestInsert status a) hrest
      have hstep : ∀ e0, status k = some e0 → lexLE e0 r := by
        intro e0 h0
        by_cases hka : k = a.tvdb_id
        · subst hka
          by_cases hw : a.watched = true
          · obtain ⟨r', hr', _hm', _ha', hdom'⟩ := latestInsert_self status a hw
            exact lexLE_trans e0 r' r (hdom' e0 h0) (hdom r' hr')
          · rw [latestInsert_unwatched status a (by simpa using hw)] at hdom
            exact hdom e0 h0
        · rw [latestInsert_other status a k hka] at hdom
          exact hdom e0 h0
      refine ⟨r, hr, ?_, hstep, ?_⟩
      · rcases hmem with ⟨h1, h2, h3⟩ | hold
        · exact Or.inl ⟨List.mem_cons_of_mem a h1, h2, h3⟩
        · rcases latestInsert_cases status a k r hold with ⟨he, hw⟩ | hold2
          · subst he
            by_cases hka : k = r.tvdb_id
            · exact Or.inl ⟨List.mem_cons_self r rest, hw, hka.symm⟩
            · rw [latestInsert_other status r k hka] at hold
              exact Or.inr hold
          · exact Or.inr hold2
      · intro b hb hbw hbk
        rcases List.mem_cons.mp hb with hba | hbr
        · subst hba
          have hka : k = b.tvdb_id := hbk.symm
          subst hka
          obtain ⟨r', hr', _hm', ha', hdom'⟩ := latestInsert_self status b hbw
          exact lexLE_trans b r' r ha' (hdom r' hr')
        · exact hball b hbr hbw hbk
    · obtain ⟨x, hxm, hxw, hxk⟩ := hx
      have hxa : x = a := by
        rcases List.mem_cons.mp hxm with h | h
        · exact h
        · exact absurd ⟨x, h, hxw, hxk⟩ hrest
      subst hxa
      have hka : k = x.tvdb_id := hxk.symm
      subst hka
      obtain ⟨r', hr', hm', ha', hdom'⟩ := latestInsert_self status x hxw
      have huntouched : (rest.foldl latestInsert (latestInsert status x))
          x.tvdb_id = latestInsert status x x.tvdb_id := by
        refine latestFold_untouched rest (latestInsert status x) x.tvdb_id ?_
        intro b hb hbw hbk
        exact hrest ⟨b, hb, hbw, hbk⟩
      refine ⟨r', by rw [huntouched, hr'], ?_, ?_, ?_⟩
      · rcases hm' with he | hold
        · exact Or.inl ⟨he ▸ List.mem_cons_self x rest, he ▸ hxw, he ▸ rfl⟩
        · exact Or.inr hold
      · exact hdom'
      · intro b hb hbw hbk
        rcases List.mem_cons.mp hb with hba | hbr
        · exact hba ▸ ha'
        · exact absurd ⟨b, hbr, hbw, hbk⟩ hrest

/-- Claim C1: for every aggregated series key with at least one watched
episode, `get_latest_episodes` maps that key to a watched episode of that
series whose `(season_number, number)` pair is lexicographically maximal
among the series' watched episodes — in particular, a candidate with a
strictly greater season but a lower or equal episode number than the
current best still ends up dominated by the retained entry. -/
theorem get_latest_episodes_lex_max (items : List Item) (eps : List Episode)
    (heps : get_episodes items = .ok eps) (k : Int) (x : Episode)
    (hxm : x ∈ eps) (hxw : x.watched = true) (hxk : x.tvdb_id = k) :
    ∃ m r, get_latest_episodes items = .ok m ∧ m k = some r ∧
      r ∈ eps ∧ r.watched = true ∧ r.tvdb_id = k ∧
      ∀ b ∈ eps, b.watched = true → b.tvdb_id = k → lexLE b r := by
  obtain ⟨r, hr, hmem, _hdom, hball⟩ :=
    latestFold_max eps (fun _ => none) k ⟨x, hxm, hxw, hxk⟩
  refine ⟨eps.foldl latestInsert (fun _ => none), r,
    by simp [get_latest_episodes, heps, Except.map], hr, ?_, ?_, ?_, hball⟩
  all_goals rcases hmem with ⟨h1, h2, h3⟩ | h
  · exact h1
  · cases h
  · exact h2
  · cases h
  · exact h3
  · cases h

/-! ## Sample data: the catalog of the repository's
`test_get_latest_episodes` test -/

/-- The Series item of the repository's tests: id `"14"`, external key
`"42"`. -/
def sampleSeries : Item :=
  { id := "14", media_type := "Series", index_number := none,
    parent_index_number := none, name := "test_series", season_name := none,
    series_name := none, series_id := none, is_folder := true,
    user_data := { played := false, key := "42" } }

/-- An Episode item of series `"14"` as in the repository's tests. -/
def sampleEpisodeItem (id : String) (number season : Int) (watched : Bool) : Item :=
  { id := id, media_type := "Episode", index_number := some number,
    parent_index_number := some season, name := "test_episode",
    season_name := none, series_name := some "test_series",
    series_id := some "14", is_folder := false,
    user_data := { played := watched, key := "other" } }

/-- The item sequence of `test_get_latest_episodes`: season 1 episode 42
watched, season 2 episodes 8 and 9 watched, season 2 episode 10 unwatched. -/
def sampleItems : List Item :=
  [sampleSeries, sampleEpisodeItem "15" 42 1 true, sampleEpisodeItem "15" 8 2 true,
   sampleEpisodeItem "16" 9 2 true, sampleEpisodeItem "17" 10 2 false]

/-- The episodes `get_episodes` extracts from `sampleItems`. -/
def sampleEpisodes : List Episode :=
  [{ id := "15", number := 42, name := "test_episode", season_number := 1,
     series_name := "test_series", tvdb_id := 42, watched := true },
   { id := "15", number := 8, name := "test_episode", season_number := 2,
     series_name := "test_series", tvdb_id := 42, watched := true },
   { id := "16", number := 9, name := "test_episode", season_number := 2,
     series_name := "test_series", tvdb_id := 42, watched := true },
   { id := "17", number := 10, name := "test_episode", season_number := 2,
     series_name := "test_series", tvdb_id := 42, watched := false }]

/-- The reduction result over `sampleEpisodes`. -/
def sampleLatest : Int → Option Episode :=
  sampleEpisodes.foldl latestInsert (fun _ => none)

theorem get_latest_episodes_all_watched_witness :
    ({ id := "16", number := 9, name := "test_episode", season_number := 2,
       series_name := "test_series", tvdb_id := 42,
       watched := true } : Episode).watched = true :=
  get_latest_episodes_all_watched sampleItems sampleLatest rfl 42 _ (by decide)

theorem get_latest_episodes_lex_max_witness :
    ∃ m r, get_latest_episodes sampleItems = .ok m ∧ m 42 = some r ∧
      r ∈ sampleEpisodes ∧ r.watched = true ∧ r.tvdb_id = 42 ∧
      ∀ b ∈ sampleEpisodes, b.watched = true → b.tvdb_id = 42 → lexLE b r :=
  get_latest_episodes_lex_max sampleItems sampleEpisodes (by decide) 42
    { id := "15", number := 42, name := "test_episode", season_number := 1,
      series_name := "test_series", tvdb_id := 42, watched := true }
    (by decide) (by decide) (by decide)

/-! ## Traversal call-count theorems -/

/-- Total folder count over a frontier. -/
def stackFolders : List (List CatalogNode) → Nat
  | [] => 0
  | cs :: rest => foldersForest cs + stackFolders rest

theorem stackFolders_append (a b : List (List CatalogNode)) :
    stackFolders (a ++ b) = stackFolders a + stackFolders b := by
  induction a with
  | nil => simp [stackFolders]
  | cons c a ih => simp [stackFolders, ih]; omega

theorem stackFolders_reverse (a : List (List CatalogNode)) :
    stackFolders a.reverse = stackFolders a := by
  induction a with
  | nil => rfl
  | cons c a ih =>
    simp [List.reverse_cons, stackFolders_append, stackFolders, ih]; omega

theorem wf_head (i : Item) (children rest : List CatalogNode)
    (h : wfForest (.mk i children :: rest) = true) :
    (i.is_folder || children.isEmpty) = true ∧ wfForest children = true ∧
      wfForest rest = true := by
  simpa [wfForest, Bool.and_eq_true, and_assoc] using h

theorem wf_pushedEntries (cs : List CatalogNode) (h : wfForest cs = true) :
    ∀ e ∈ pushedEntries cs, wfForest e = true := by
  induction cs with
  | nil => intro e he; simp [pushedEntries] at he
  | cons c rest ih =>
    obtain ⟨i, children⟩ := c
    obtain ⟨h1, h2, h3⟩ := wf_head i children rest h
    intro e he
    by_cases hf : i.is_folder
    · simp only [pushedEntries, hf, if_true] at he
      rcases List.mem_cons.mp he with rfl | he2
      · exact h2
      · exact ih h3 e he2
    · simp only [pushedEntries, hf, if_false] at he
      exact ih h3 e he

theorem foldersForest_pushed (cs : List CatalogNode) (h : wfForest cs = true) :
    foldersForest cs =
      (pushedEntries cs).length + stackFolders (pushedEntries cs) := by
  induction cs with
  | nil => simp [foldersForest, pushedEntries, stackFolders]
  | cons c rest ih =>
    obtain ⟨i, children⟩ := c
    obtain ⟨h1, h2, h3⟩ := wf_head i children rest h
    by_cases hf : i.is_folder
    · simp only [foldersForest, pushedEntries, hf, if_true, List.length_cons,
        stackFolders]
      have := ih h3
      omega
    · have hempty : children = [] := by
        have h1' : i.is_folder = true ∨ children.isEmpty = true := by
          simpa using h1
        rcases h1' with hh | hh
        · exact absurd hh hf
        · exact List.isEmpty_iff.mp hh
      subst hempty
      simp only [foldersForest, pushedEntries, hf, if_false]
      have := ih h3
      simp [foldersForest] at this ⊢
      omega

theorem traverseAux_calls (stack : List (List CatalogNode))
    (hwf : ∀ cs ∈ stack, wfForest cs = true) :
    (traverseAux stack).2 = stack.length + stackFolders stack := by
  induction stack using traverseAux.induct with
  | case1 => simp [traverseAux, stackFolders]
  | case2 cs rest ih =>
    have hcs : wfForest cs = true := hwf cs (List.mem_cons_self cs rest)
    have hnext : ∀ e ∈ (pushedEntries cs).reverse ++ rest, wfForest e = true := by
      intro e he
      rcases List.mem_append.mp he with h | h
      · exact wf_pushedEntries cs hcs e (List.mem_reverse.mp h)
      · exact hwf e (List.mem_cons_of_mem cs h)
    have hrec := ih hnext
    simp only [traverseAux]
    rw [hrec]
    simp only [List.length_append, List.length_reverse, List.length_cons,
      stackFolders_append, stackFolders_reverse, stackFolders]
    have := foldersForest_pushed cs hcs
    omega

/-- Claim C9: over any strict-tree catalog — one where only container items
have children — `get_items` terminates (it is a total function of the
catalog) and issues exactly as many child-listing calls as the catalog has
container nodes: one for the root container it starts from plus one for
every folder item, regardless of nesting depth or branching factor. -/
theorem get_items_call_count (catalog : List CatalogNode)
    (h : wfForest catalog = true) :
    (get_items catalog).2 = containerCount catalog := by
  have := traverseAux_calls [catalog] (by
    intro cs hcs
    rcases List.mem_cons.mp hcs with rfl | h2
    · exact h
    · cases h2)
  simp only [get_items, containerCount]
  rw [this]
  simp [stackFolders]

theorem get_items_call_count_witness :
    wfForest [CatalogNode.mk sampleSeries
        [.mk (sampleEpisodeItem "15" 8 2 true) []],
      .mk (sampleEpisodeItem "16" 9 2 true) []] = true ∧
      (get_items [CatalogNode.mk sampleSeries
          [.mk (sampleEpisodeItem "15" 8 2 true) []],
        .mk (sampleEpisodeItem "16" 9 2 true) []]).2 =
        containerCount [CatalogNode.mk sampleSeries
          [.mk (sampleEpisodeItem "15" 8 2 true) []],
        .mk (sampleEpisodeItem "16" 9 2 true) []] := by
  have pf : wfForest [CatalogNode.mk sampleSeries
      [.mk (sampleEpisodeItem "15" 8 2 true) []],
    .mk (sampleEpisodeItem "16" 9 2 true) []] = true := by
    simp [wfForest, sampleSeries, sampleEpisodeItem]
  exact ⟨pf, get_items_call_count _ pf⟩

theorem tvdb_id_to_mal_id_roundtrip_witness :
    tvdb_id_to_mal_id 5 2
        ([] ++ ({ anidbid := "7", tvdbid := "5", defaulttvdbseason := "2" } : Anime) :: [])
        ([{ anidb_id := some 7, mal_id := none }] ++
          ({ anidb_id := some 7, mal_id := some 99 } : OfflineAnime) :: []) = .ok 99 :=
  tvdb_id_to_mal_id_roundtrip 5 7 99 [] [] _ [{ anidb_id := some 7, mal_id := none }] [] _
    (by decide) (by decide) (by decide) (by decide) (by decide) (by decide) (by decide)

end Jellymal
